import Mathlib

/-!
Shallow embedding of the FreshMart storefront back-end's order-fulfillment
core: the product/inventory data, the cart aggregate (cartModel.js), the
stock-adjust route (productsRoutes.js `PATCH /:id/stock`), and the order
routes (create, list, get single, update-status, update-payment, cancel).
All JavaScript numbers (quantities, stock, money) are modelled as `ℚ`
(exact arithmetic on the numerals the code manipulates); timestamps are
`ℤ`; document collections are lists.  Fallible handlers return
`Except err α × Store`, the second component being the product collection
after the handler ran (unchanged on every early-return path, exactly as
the Mongo store is untouched when the code returns before its update
calls).
-/

namespace FreshMart

/-- A catalog product: the fields of `productSchema` that the order core
reads (`_id`, `name`, `price`, `stock`, `isActive`). -/
structure Product where
  id : Nat
  name : String
  price : ℚ
  stock : ℚ
  isActive : Bool
deriving DecidableEq, Repr

/-- The product collection. -/
abbrev Store := List Product

/-- `Product.findOne({ _id: pid, isActive: true })` / `productMap.get(pid)`:
the active product with the given id. -/
def lookupActive (store : Store) (pid : Nat) : Option Product :=
  store.find? (fun p => p.isActive && decide (p.id = pid))

/-- `Product.findById(pid)`. -/
def lookupProduct (store : Store) (pid : Nat) : Option Product :=
  store.find? (fun p => decide (p.id = pid))

/-- `Product.findByIdAndUpdate(pid, { $inc: { stock: d } })`. -/
def applyDelta (store : Store) (pid : Nat) (d : ℚ) : Store :=
  store.map (fun p => if p.id = pid then { p with stock := p.stock + d } else p)

/-- The order-creation stock decrement loop:
`for (const item of items) { ... $inc: { stock: -item.quantity } }`. -/
def decAll (items : List (Nat × ℚ)) (store : Store) : Store :=
  items.foldl (fun s i => applyDelta s i.1 (-i.2)) store

/- ### Cart aggregate (cartModel.js) -/

/-- A cart line (`cartItemSchema`): product ref, quantity, unit-price
snapshot, and stored line total. -/
structure CartItem where
  product : Nat
  quantity : ℚ
  price : ℚ
  total : ℚ
deriving DecidableEq, Repr

/-- The cart document (`cartSchema`). -/
structure Cart where
  user : Nat
  items : List CartItem
  subtotal : ℚ
  totalItems : ℚ
  lastUpdated : ℤ
deriving DecidableEq, Repr

/-- `cart.save()`: the `pre('save')` hooks.  `cartItemSchema.pre('save')`
recomputes each line total as `price * quantity` (subdocument hooks run
before the parent document's), then `cartSchema.pre('save')` recomputes
`subtotal` and `totalItems` by reducing over the items and refreshes
`lastUpdated`. -/
def saveCart (c : Cart) (now : ℤ) : Cart :=
  let items := c.items.map (fun it => { it with total := it.price * it.quantity })
  { c with
    items := items
    subtotal := (items.map (fun it => it.total)).sum
    totalItems := (items.map (fun it => it.quantity)).sum
    lastUpdated := now }

/-- The body of `addItem`'s `findIndex`/update/push logic: update the first
line matching the product (quantity increased by `qty`, total recomputed
from the passed price and the new quantity), else append a fresh line. -/
def addLine (pid : Nat) (qty : ℚ) (price : ℚ) : List CartItem → List CartItem
  | [] => [{ product := pid, quantity := qty, price := price, total := qty * price }]
  | it :: rest =>
    if it.product = pid then
      { it with quantity := it.quantity + qty, total := (it.quantity + qty) * price } :: rest
    else
      it :: addLine pid qty price rest

/-- `cartSchema.methods.addItem(productId, quantity, price)` followed by
`this.save()`. -/
def addItem (c : Cart) (pid : Nat) (qty : ℚ) (price : ℚ) (now : ℤ) : Cart :=
  saveCart { c with items := addLine pid qty price c.items } now

/-- The body of `updateItem`'s `findIndex` logic: on the first line matching
the product, remove it when `quantity ≤ 0` (splice), else set the quantity
and recompute the total from the stored price; `none` when the product is
absent (the method throws `Item not found in cart`). -/
def updateLine (pid : Nat) (qty : ℚ) : List CartItem → Option (List CartItem)
  | [] => none
  | it :: rest =>
    if it.product = pid then
      some (if qty ≤ 0 then rest else
        { it with quantity := qty, total := qty * it.price } :: rest)
    else
      (updateLine pid qty rest).map (fun l => it :: l)

/-- `cartSchema.methods.updateItem(productId, quantity)`. -/
def updateItem (c : Cart) (pid : Nat) (qty : ℚ) (now : ℤ) : Except String Cart :=
  match updateLine pid qty c.items with
  | some items => .ok (saveCart { c with items := items } now)
  | none => .error "Item not found in cart"

/-- `cartSchema.methods.removeItem(productId)`: filter out the product,
then save. -/
def removeItem (c : Cart) (pid : Nat) (now : ℤ) : Cart :=
  saveCart { c with items := c.items.filter (fun it => !decide (it.product = pid)) } now

/-- `cartSchema.methods.clearCart()`. -/
def clearCart (c : Cart) (now : ℤ) : Cart :=
  saveCart { c with items := [] } now

/-- The derived-value invariant the cart hooks maintain on every persisted
document: line totals recomputed from price × quantity, subtotal and item
count recomputed from the items, timestamp refreshed. -/
def cartInv (now : ℤ) (c : Cart) : Prop :=
  (∀ it ∈ c.items, it.total = it.price * it.quantity) ∧
  c.subtotal = (c.items.map (fun it => it.total)).sum ∧
  c.totalItems = (c.items.map (fun it => it.quantity)).sum ∧
  c.lastUpdated = now

/- ### Stock adjustment (productsRoutes.js `PATCH /:id/stock`) -/

/-- The `operation` body field: one of `set`, `add`, `subtract`
(express-validator `isIn`); absent means the destructuring default `set`. -/
inductive StockOp
  | set
  | add
  | subtract
deriving DecidableEq, Repr

/-- Errors surfaced by the routes. -/
inductive RouteError
  | validation
  | notFound
  | alreadyCancelled
deriving DecidableEq, Repr

/-- `PATCH /:id/stock`: validates `stock` as a non-negative number
(`isInt({ min: 0 })`), finds the product, computes the new stock by the
requested operation (`add` adds, `subtract` clamps at zero via
`Math.max(0, ...)`, default `set` replaces), and persists it.  Returns the
updated store together with the response's `previousStock` and
`newStock`. -/
def adjustStock (store : Store) (pid : Nat) (v : ℚ) (op : Option StockOp) :
    Except RouteError (Store × ℚ × ℚ) :=
  if v < 0 then .error .validation
  else
    match lookupProduct store pid with
    | none => .error .notFound
    | some p =>
      let newStock :=
        match op.getD .set with
        | .add => p.stock + v
        | .subtract => max 0 (p.stock - v)
        | .set => v
      .ok (store.map (fun q => if q.id = pid then { q with stock := newStock } else q),
           p.stock, newStock)

/- ### Orders (order router) -/

/-- The order `status` enum. -/
inductive OrderStatus
  | pending
  | confirmed
  | processing
  | shipped
  | delivered
  | cancelled
deriving DecidableEq, Repr

/-- The `paymentStatus` enum. -/
inductive PaymentStatus
  | pending
  | paid
  | failed
  | refunded
deriving DecidableEq, Repr

/-- An order line as materialized by order creation: product ref, quantity,
unit-price snapshot, and line total. -/
structure OrderItem where
  product : Nat
  quantity : ℚ
  price : ℚ
  total : ℚ
deriving DecidableEq, Repr

/-- The order document: the fields the order router reads or writes. -/
structure Order where
  id : Nat
  customer : Nat
  items : List OrderItem
  subtotal : ℚ
  taxAmount : ℚ
  shippingCost : ℚ
  totalAmount : ℚ
  status : OrderStatus
  paymentStatus : PaymentStatus
  trackingNumber : Option String
  estimatedDelivery : Option ℤ
  deliveredAt : Option ℤ
  cancelledAt : Option ℤ
  cancelReason : Option String
  notes : Option String
  createdAt : ℤ
deriving DecidableEq, Repr

/-- The caller's role supplied by the auth middleware. -/
inductive Role
  | user
  | admin
deriving DecidableEq, Repr

/-- Failures of `POST /` (order creation). -/
inductive CreateError
  | validation
  | productsUnavailable
  | productNotFound (pid : Nat)
  | insufficientStock (name : String) (available requested : ℚ)
deriving DecidableEq, Repr

/-- The `POST /` request body after validation middleware: items as
`(productId, quantity)` pairs, optional `taxRate` (destructuring default
`0.08`) and `shippingCost` (default `0`), optional notes. -/
structure CreateOrderRequest where
  items : List (Nat × ℚ)
  taxRate : Option ℚ
  shippingCost : Option ℚ
  notes : Option String
deriving DecidableEq, Repr

/-- The order-creation item loop: for each item look the product up in the
product map, fail `Product not found` if absent, fail `Insufficient stock
for <name>. Available: <stock>, Requested: <quantity>` when
`product.stock < item.quantity`, else accumulate the order item (price
snapshotted from the current product) and the running subtotal. -/
def buildItems (store : Store) : List (Nat × ℚ) → Except CreateError (List OrderItem × ℚ)
  | [] => .ok ([], 0)
  | (pid, qty) :: rest =>
    match lookupActive store pid with
    | none => .error (.productNotFound pid)
    | some product =>
      if product.stock < qty then
        .error (.insufficientStock product.name product.stock qty)
      else
        match buildItems store rest with
        | .error e => .error e
        | .ok (ois, sub) =>
          .ok ({ product := product.id, quantity := qty, price := product.price,
                 total := product.price * qty } :: ois,
               product.price * qty + sub)

/-- `POST /` (create order): verify every referenced product exists and is
active (the `products.length !== productIds.length` check), run the item
loop (stock checks, price snapshots, subtotal), compute
`taxAmount = subtotal * taxRate` and
`totalAmount = subtotal + taxAmount + shippingCost`, create the order
(status and payment status take the order schema's `pending` defaults, per
the spec's §3/§4.3 description of the order document), and only then run
the stock decrement loop over the request items. -/
def createOrder (uid oid : Nat) (now : ℤ) (req : CreateOrderRequest) (store : Store) :
    Except CreateError Order × Store :=
  let ids := req.items.map (fun i => i.1)
  let found := store.filter (fun p => p.isActive && decide (p.id ∈ ids))
  if found.length ≠ ids.length then
    (.error .productsUnavailable, store)
  else
    match buildItems store req.items with
    | .error e => (.error e, store)
    | .ok (ois, sub) =>
      let taxRate := req.taxRate.getD (8 / 100)
      let shippingCost := req.shippingCost.getD 0
      let taxAmount := sub * taxRate
      let totalAmount := sub + taxAmount + shippingCost
      let order : Order :=
        { id := oid, customer := uid, items := ois, subtotal := sub
          taxAmount := taxAmount, shippingCost := shippingCost
          totalAmount := totalAmount
          status := .pending, paymentStatus := .pending
          trackingNumber := none, estimatedDelivery := none, deliveredAt := none
          cancelledAt := none, cancelReason := none, notes := req.notes
          createdAt := now }
      (.ok order, decAll req.items store)

/-- Whether an order item is short on stock: its product resolves and the
available stock is below the requested quantity. -/
def shortfallB (store : Store) (i : Nat × ℚ) : Bool :=
  match lookupActive store i.1 with
  | some p => decide (p.stock < i.2)
  | none => false

/-- Fold a list of `(productId, quantity)` increments over the store (the
generic shape of the restore loops, used to state the reserve/release
round trip). -/
def restorePairs (l : List (Nat × ℚ)) (s : Store) : Store :=
  l.foldl (fun s i => applyDelta s i.1 i.2) s

/-- The cancellation stock-restore loop (shared by the `cancelled` branch of
`PATCH /:id/status` and by `PATCH /:id/cancel`):
`for (const item of order.items) { ... $inc: { stock: item.quantity } }`. -/
def restoreAll (items : List OrderItem) (store : Store) : Store :=
  items.foldl (fun s oi => applyDelta s oi.product oi.quantity) store

/-- `3 * 24 * 60 * 60 * 1000` ms: the estimated-delivery offset. -/
def threeDays : ℤ := 3 * 24 * 60 * 60 * 1000

/-- `PATCH /:id/status` (admin): find the order by id, then apply the
requested status unconditionally, with the status-specific extras: a
tracking number and estimated delivery when shipping with a tracking
number, delivery timestamp and `paymentStatus = paid` on `delivered`,
and cancellation timestamp, reason and the stock-restore loop on
`cancelled`.  No transition check is performed against the current
status. -/
def updateStatusRoute (orders : List Order) (oid : Nat) (status : OrderStatus)
    (trackingNumber : Option String) (cancelReason : Option String) (now : ℤ)
    (store : Store) : Except RouteError Order × Store :=
  match orders.find? (fun o => decide (o.id = oid)) with
  | none => (.error .notFound, store)
  | some o =>
    let o₁ := { o with status := status }
    let o₂ :=
      if status = .shipped ∧ trackingNumber.isSome then
        { o₁ with trackingNumber := trackingNumber
                  estimatedDelivery := some (now + threeDays) }
      else o₁
    let o₃ :=
      if status = .delivered then
        { o₂ with deliveredAt := some now, paymentStatus := .paid }
      else o₂
    if status = .cancelled then
      (.ok { o₃ with cancelledAt := some now, cancelReason := cancelReason },
       restoreAll o.items store)
    else
      (.ok o₃, store)

/-- The `findOne` query of `PATCH /:id/cancel`: match by id, and for
non-admin callers additionally require ownership and `pending` status. -/
def cancelQuery (caller : Nat) (role : Role) (oid : Nat) (o : Order) : Bool :=
  decide (o.id = oid) &&
    (decide (role = .admin) ||
      (decide (o.customer = caller) && decide (o.status = .pending)))

/-- `PATCH /:id/cancel`: look the order up with `cancelQuery` (404 when
nothing matches), reject with `AlreadyCancelled` when its status is already
`cancelled`, else run the stock-restore loop and mark the order
cancelled. -/
def cancelRoute (caller : Nat) (role : Role) (oid : Nat) (reason : Option String)
    (now : ℤ) (orders : List Order) (store : Store) : Except RouteError Order × Store :=
  match orders.find? (cancelQuery caller role oid) with
  | none => (.error .notFound, store)
  | some o =>
    if o.status = .cancelled then (.error .alreadyCancelled, store)
    else
      (.ok { o with status := .cancelled, cancelledAt := some now, cancelReason := reason },
       restoreAll o.items store)

/-- The HTTP status and message `PATCH /:id/cancel` sends for each
outcome. -/
def cancelResponse (caller : Nat) (role : Role) (oid : Nat) (reason : Option String)
    (now : ℤ) (orders : List Order) (store : Store) : Nat × String :=
  match (cancelRoute caller role oid reason now orders store).1 with
  | .error .notFound => (404, "Order not found or cannot be cancelled")
  | .error .alreadyCancelled => (400, "Order is already cancelled")
  | .error .validation => (400, "Validation error")
  | .ok _ => (200, "Order cancelled successfully")

/-- `GET /:id`: find the order by id, restricted to the caller's own orders
for non-admin callers. -/
def getOrderRoute (caller : Nat) (role : Role) (oid : Nat) (orders : List Order) :
    Except RouteError Order :=
  match orders.find? (fun o =>
      decide (o.id = oid) && (decide (role = .admin) || decide (o.customer = caller))) with
  | none => .error .notFound
  | some o => .ok o

/-- The HTTP status and message `GET /:id` sends for each outcome. -/
def getOrderResponse (caller : Nat) (role : Role) (oid : Nat) (orders : List Order) :
    Nat × String :=
  match getOrderRoute caller role oid orders with
  | .error _ => (404, "Order not found")
  | .ok _ => (200, "OK")

/-- The optional query filters of `GET /` (orders list). -/
structure ListFilters where
  status : Option OrderStatus
  paymentStatus : Option PaymentStatus
  startDate : Option ℤ
  endDate : Option ℤ
  page : Nat
  limit : Nat
deriving Repr

/-- The Mongo query object `GET /` builds: customer scoping for non-admin
callers, conjoined with the optional status, payment-status, and
creation-date filters. -/
def listQuery (caller : Nat) (role : Role) (f : ListFilters) (o : Order) : Bool :=
  (decide (role = .admin) || decide (o.customer = caller)) &&
  (match f.status with | none => true | some s => decide (o.status = s)) &&
  (match f.paymentStatus with | none => true | some s => decide (o.paymentStatus = s)) &&
  (match f.startDate with | none => true | some d => decide (d ≤ o.createdAt)) &&
  (match f.endDate with | none => true | some d => decide (o.createdAt ≤ d))

/-- Insert into a sorted list: one step of the store's sort. -/
def insertSorted (le : Order → Order → Bool) (o : Order) : List Order → List Order
  | [] => [o]
  | x :: xs => if le o x then o :: x :: xs else x :: insertSorted le o xs

/-- The store's `sort(sortOptions)`, modelled as an insertion sort by an
arbitrary comparator (the route builds the comparator from the `sortBy` and
`sortOrder` query fields). -/
def sortOrders (le : Order → Order → Bool) : List Order → List Order
  | [] => []
  | x :: xs => insertSorted le x (sortOrders le xs)

/-- `GET /` (orders list): filter by the query, sort, then paginate with
`skip((page - 1) * limit)` and `limit(limit)`. -/
def listOrdersRoute (caller : Nat) (role : Role) (f : ListFilters)
    (le : Order → Order → Bool) (orders : List Order) : List Order :=
  ((sortOrders le (orders.filter (listQuery caller role f))).drop
      ((f.page - 1) * f.limit)).take f.limit

/-! ### Inventory algebra -/

theorem lookupActive_some {store : Store} {pid : Nat} {p : Product}
    (h : lookupActive store pid = some p) : p.id = pid ∧ p.isActive = true := by
  have hp := List.find?_some h
  simp only [Bool.and_eq_true, decide_eq_true_eq] at hp
  exact ⟨hp.2, hp.1⟩

theorem lookupActive_mem {store : Store} {pid : Nat} {p : Product}
    (h : lookupActive store pid = some p) : p ∈ store :=
  List.mem_of_find?_eq_some h

theorem applyDelta_ite (s : Store) (a : Nat) (x : ℚ) :
    applyDelta s a x
      = s.map (fun p => { p with stock := p.stock + if p.id = a then x else 0 }) := by
  unfold applyDelta
  refine List.map_congr_left ?_
  intro p _
  by_cases h : p.id = a
  · rw [if_pos h, if_pos h]
  · rw [if_neg h, if_neg h]
    conv_rhs => rw [add_zero]

theorem applyDelta_applyDelta (s : Store) (a b : Nat) (x y : ℚ) :
    applyDelta (applyDelta s b y) a x
      = s.map (fun p =>
          { p with stock := p.stock +
              ((if p.id = b then y else 0) + (if p.id = a then x else 0)) }) := by
  rw [applyDelta_ite, applyDelta_ite, List.map_map]
  refine List.map_congr_left ?_
  intro p _
  dsimp only [Function.comp]
  rw [add_assoc]

theorem applyDelta_comm (s : Store) (a b : Nat) (x y : ℚ) :
    applyDelta (applyDelta s a x) b y = applyDelta (applyDelta s b y) a x := by
  rw [applyDelta_applyDelta, applyDelta_applyDelta]
  refine List.map_congr_left ?_
  intro p _
  rw [add_comm (if p.id = a then x else 0)]

theorem applyDelta_cancel (s : Store) (a : Nat) (q : ℚ) :
    applyDelta (applyDelta s a (-q)) a q = s := by
  rw [applyDelta_applyDelta]
  conv_rhs => rw [← List.map_id s]
  refine List.map_congr_left ?_
  intro p _
  by_cases h : p.id = a
  · rw [if_pos h, if_pos h, neg_add_cancel, add_zero]
    rfl
  · rw [if_neg h, if_neg h, add_zero, add_zero]
    rfl

theorem decAll_applyDelta (l : List (Nat × ℚ)) :
    ∀ (s : Store) (a : Nat) (x : ℚ),
      decAll l (applyDelta s a x) = applyDelta (decAll l s) a x := by
  induction l with
  | nil => intro s a x; rfl
  | cons i t ih =>
    intro s a x
    have h1 : decAll (i :: t) (applyDelta s a x)
        = decAll t (applyDelta (applyDelta s a x) i.1 (-i.2)) := rfl
    rw [h1, applyDelta_comm, ih]
    rfl

theorem restorePairs_decAll (l : List (Nat × ℚ)) : ∀ s : Store,
    restorePairs l (decAll l s) = s := by
  induction l with
  | nil => intro s; rfl
  | cons i t ih =>
    intro s
    have h1 : decAll (i :: t) s = decAll t (applyDelta s i.1 (-i.2)) := rfl
    have h2 : restorePairs (i :: t) (decAll (i :: t) s)
        = restorePairs t (applyDelta (decAll (i :: t) s) i.1 i.2) := rfl
    rw [h2, h1, decAll_applyDelta, applyDelta_cancel]
    exact ih s

theorem restoreAll_eq_restorePairs (ois : List OrderItem) (s : Store) :
    restoreAll ois s = restorePairs (ois.map (fun oi => (oi.product, oi.quantity))) s := by
  simp [restoreAll, restorePairs, List.foldl_map]

/-! ### The order-creation item loop -/

theorem buildItems_ok (store : Store) (l : List (Nat × ℚ)) :
    ∀ ois sub, buildItems store l = .ok (ois, sub) →
      ois.map (fun oi => (oi.product, oi.quantity)) = l ∧
      sub = (ois.map (fun oi => oi.price * oi.quantity)).sum ∧
      ∀ oi ∈ ois, ∃ p, lookupActive store oi.product = some p ∧
        oi.price = p.price ∧ oi.total = p.price * oi.quantity ∧ oi.quantity ≤ p.stock := by
  induction l with
  | nil =>
    intro ois sub h
    simp only [buildItems, Except.ok.injEq, Prod.mk.injEq] at h
    obtain ⟨rfl, rfl⟩ := h
    simp
  | cons i t ih =>
    intro ois sub h
    obtain ⟨pid, qty⟩ := i
    simp only [buildItems] at h
    cases hl : lookupActive store pid with
    | none => rw [hl] at h; exact absurd h (by simp)
    | some product =>
      rw [hl] at h
      dsimp only at h
      by_cases hstock : product.stock < qty
      · rw [if_pos hstock] at h
        exact absurd h (by simp)
      · rw [if_neg hstock] at h
        cases hb : buildItems store t with
        | error e => rw [hb] at h; exact absurd h (by simp)
        | ok pr =>
          obtain ⟨ois', sub'⟩ := pr
          rw [hb] at h
          simp only [Except.ok.injEq, Prod.mk.injEq] at h
          obtain ⟨rfl, rfl⟩ := h
          obtain ⟨hpairs, hsum, hsnap⟩ := ih ois' sub' hb
          obtain ⟨hid, _⟩ := lookupActive_some hl
          refine ⟨?_, ?_, ?_⟩
          · simp [hpairs, hid]
          · simp [hsum]
          · intro oi hoi
            rcases List.mem_cons.mp hoi with rfl | hoi
            · refine ⟨product, ?_, rfl, rfl, le_of_not_lt hstock⟩
              show lookupActive store product.id = some product
              rw [hid]; exact hl
            · exact hsnap oi hoi

theorem buildItems_shortfall (store : Store) (l : List (Nat × ℚ)) :
    (∀ i ∈ l, (lookupActive store i.1).isSome = true) →
    (∃ i ∈ l, shortfallB store i = true) →
    ∃ name avail reqq,
      buildItems store l = .error (.insufficientStock name avail reqq) ∧
      avail < reqq ∧
      ∃ i ∈ l, ∃ p, lookupActive store i.1 = some p ∧
        p.name = name ∧ p.stock = avail ∧ i.2 = reqq := by
  induction l with
  | nil =>
    intro _ hshort
    simp at hshort
  | cons i t ih =>
    intro hall hshort
    obtain ⟨pid, qty⟩ := i
    have hhead := hall (pid, qty) (List.mem_cons_self _ _)
    obtain ⟨p, hl⟩ := Option.isSome_iff_exists.mp hhead
    by_cases hlt : p.stock < qty
    · refine ⟨p.name, p.stock, qty, ?_, hlt, (pid, qty), List.mem_cons_self _ _,
        p, hl, rfl, rfl, rfl⟩
      simp only [buildItems]
      rw [hl]
      dsimp only
      rw [if_pos hlt]
    · have hshort' : ∃ i ∈ t, shortfallB store i = true := by
        rcases hshort with ⟨j, hj, hjs⟩
        rcases List.mem_cons.mp hj with rfl | hjt
        · exfalso
          unfold shortfallB at hjs
          rw [hl] at hjs
          simp only [decide_eq_true_eq] at hjs
          exact hlt hjs
        · exact ⟨j, hjt, hjs⟩
      obtain ⟨name, avail, reqq, hbuild, hav, j, hjt, hp⟩ :=
        ih (fun i hi => hall i (List.mem_cons_of_mem _ hi)) hshort'
      refine ⟨name, avail, reqq, ?_, hav, j, List.mem_cons_of_mem _ hjt, hp⟩
      simp only [buildItems]
      rw [hl]
      dsimp only
      rw [if_neg hlt, hbuild]

/-! ### Order creation: failure atomicity and totals -/

/-- C1: a create-order request in which some item's requested quantity
exceeds its product's available stock fails with `InsufficientStock`
naming the product, its available quantity, and the requested quantity;
the store is returned unchanged (no product's stock is decremented) and no
order is created (the result carries no order). -/
theorem c1_insufficient_stock_aborts (uid oid : Nat) (now : ℤ)
    (req : CreateOrderRequest) (store : Store)
    (hfound : (store.filter (fun p => p.isActive &&
        decide (p.id ∈ req.items.map (fun i => i.1)))).length
      = (req.items.map (fun i => i.1)).length)
    (hall : ∀ i ∈ req.items, (lookupActive store i.1).isSome = true)
    (hshort : ∃ i ∈ req.items, shortfallB store i = true) :
    ∃ name avail reqq,
      createOrder uid oid now req store
        = (.error (.insufficientStock name avail reqq), store) ∧
      avail < reqq ∧
      ∃ i ∈ req.items, ∃ p, lookupActive store i.1 = some p ∧
        p.name = name ∧ p.stock = avail ∧ i.2 = reqq := by
  obtain ⟨name, avail, reqq, hbuild, hav, hwit⟩ :=
    buildItems_shortfall store req.items hall hshort
  refine ⟨name, avail, reqq, ?_, hav, hwit⟩
  simp only [createOrder]
  rw [if_neg (by simp [hfound]), hbuild]

/-- C1 witness: ordering (A, qty 3) and (B, qty 1000) when B has stock 2
fails with `InsufficientStock "B" 2 1000` and leaves the store intact. -/
theorem c1_insufficient_stock_aborts_witness :
    ∃ name avail reqq,
      createOrder 7 10 0 ⟨[(1, 3), (2, 1000)], none, none, none⟩
          [⟨1, "A", 5, 5, true⟩, ⟨2, "B", 7, 2, true⟩]
        = (.error (.insufficientStock name avail reqq),
           [⟨1, "A", 5, 5, true⟩, ⟨2, "B", 7, 2, true⟩]) ∧
      avail < reqq ∧
      ∃ i ∈ [((1 : Nat), (3 : ℚ)), (2, 1000)], ∃ p,
        lookupActive [⟨1, "A", 5, 5, true⟩, ⟨2, "B", 7, 2, true⟩] i.1 = some p ∧
        p.name = name ∧ p.stock = avail ∧ i.2 = reqq :=
  c1_insufficient_stock_aborts 7 10 0 ⟨[(1, 3), (2, 1000)], none, none, none⟩
    [⟨1, "A", 5, 5, true⟩, ⟨2, "B", 7, 2, true⟩]
    (by decide) (by decide) (by decide)

/-- C3: for an order that creation committed, the quantities released by
the cancellation restore loop are exactly the quantities reserved by the
creation decrement loop — their sums agree, and running the restore loop
on the post-creation store returns every product's stock to its pre-order
value (the whole store round-trips). -/
theorem c3_reserve_cancel_roundtrip (uid oid : Nat) (now : ℤ)
    (req : CreateOrderRequest) (store : Store) (order : Order) (store₂ : Store)
    (h : createOrder uid oid now req store = (.ok order, store₂)) :
    (order.items.map (fun oi => oi.quantity)).sum
      = (req.items.map (fun i => i.2)).sum ∧
    restoreAll order.items store₂ = store := by
  simp only [createOrder] at h
  by_cases hlen : (store.filter (fun p => p.isActive &&
      decide (p.id ∈ req.items.map (fun i => i.1)))).length
      ≠ (req.items.map (fun i => i.1)).length
  · rw [if_pos hlen] at h
    exact absurd h (by simp)
  · rw [if_neg hlen] at h
    cases hb : buildItems store req.items with
    | error e =>
      rw [hb] at h
      exact absurd h (by simp)
    | ok pr =>
      obtain ⟨ois, sub⟩ := pr
      rw [hb] at h
      simp only [Prod.mk.injEq, Except.ok.injEq] at h
      obtain ⟨horder, hstore⟩ := h
      subst horder
      subst hstore
      obtain ⟨hpairs, hsum, hsnap⟩ := buildItems_ok store req.items ois sub hb
      constructor
      · have hq := congrArg (fun l : List (Nat × ℚ) => (l.map (fun i => i.2)).sum) hpairs
        simpa [List.map_map, Function.comp] using hq
      · show restoreAll ois (decAll req.items store) = store
        rw [restoreAll_eq_restorePairs, hpairs, restorePairs_decAll]

/-- C3 witness: creating an order of 3 units of a 5-in-stock product drops
the stock to 2, and the restore loop brings the store back exactly. -/
theorem c3_reserve_cancel_roundtrip_witness :
    (([⟨1, 3, 2, 6⟩] : List OrderItem).map (fun oi => oi.quantity)).sum
      = (([((1 : Nat), (3 : ℚ))]).map (fun i => i.2)).sum ∧
    restoreAll [⟨1, 3, 2, 6⟩] [⟨1, "A", 2, 2, true⟩] = [⟨1, "A", 2, 5, true⟩] :=
  c3_reserve_cancel_roundtrip 7 1 0 ⟨[(1, 3)], some 1, some 2, none⟩
    [⟨1, "A", 2, 5, true⟩]
    ⟨1, 7, [⟨1, 3, 2, 6⟩], 6, 6, 2, 14, .pending, .pending,
      none, none, none, none, none, none, 0⟩
    [⟨1, "A", 2, 2, true⟩]
    (by norm_num [createOrder, buildItems, lookupActive, List.find?, decAll,
      applyDelta, List.filter])

/-- C5: every committed order's subtotal is the sum of price × quantity
over its items, each item's price and total are snapshotted from the
current product (price × quantity), `taxAmount = subtotal * taxRate` with
`taxRate` defaulting to `0.08` when omitted, `shippingCost` defaults to
`0` when omitted, and `totalAmount = subtotal + taxAmount +
shippingCost`. -/
theorem c5_order_totals (uid oid : Nat) (now : ℤ)
    (req : CreateOrderRequest) (store : Store) (order : Order) (store₂ : Store)
    (h : createOrder uid oid now req store = (.ok order, store₂)) :
    order.subtotal = (order.items.map (fun oi => oi.price * oi.quantity)).sum ∧
    (∀ oi ∈ order.items, ∃ p, lookupActive store oi.product = some p ∧
        oi.price = p.price ∧ oi.total = p.price * oi.quantity) ∧
    order.taxAmount = order.subtotal * (req.taxRate.getD (8 / 100)) ∧
    order.shippingCost = req.shippingCost.getD 0 ∧
    order.totalAmount = order.subtotal + order.taxAmount + order.shippingCost := by
  simp only [createOrder] at h
  by_cases hlen : (store.filter (fun p => p.isActive &&
      decide (p.id ∈ req.items.map (fun i => i.1)))).length
      ≠ (req.items.map (fun i => i.1)).length
  · rw [if_pos hlen] at h
    exact absurd h (by simp)
  · rw [if_neg hlen] at h
    cases hb : buildItems store req.items with
    | error e =>
      rw [hb] at h
      exact absurd h (by simp)
    | ok pr =>
      obtain ⟨ois, sub⟩ := pr
      rw [hb] at h
      simp only [Prod.mk.injEq, Except.ok.injEq] at h
      obtain ⟨horder, hstore⟩ := h
      subst horder
      subst hstore
      obtain ⟨hpairs, hsum, hsnap⟩ := buildItems_ok store req.items ois sub hb
      exact ⟨hsum, fun oi hoi => (hsnap oi hoi).imp
        (fun p hp => ⟨hp.1, hp.2.1, hp.2.2.1⟩), rfl, rfl, rfl⟩

/-- C5 witness: 2 units at price 3 give subtotal 6, the default tax rate
0.08 gives tax 12/25, shipping defaults to 0, and the grand total is
162/25. -/
theorem c5_order_totals_witness :
    ((6 : ℚ) = (([⟨4, 2, 3, 6⟩] : List OrderItem).map
        (fun oi => oi.price * oi.quantity)).sum) ∧
    (∀ oi ∈ ([⟨4, 2, 3, 6⟩] : List OrderItem), ∃ p,
        lookupActive [⟨4, "B", 3, 10, true⟩] oi.product = some p ∧
        oi.price = p.price ∧ oi.total = p.price * oi.quantity) ∧
    ((12 : ℚ) / 25 = 6 * ((none : Option ℚ).getD (8 / 100))) ∧
    ((0 : ℚ) = (none : Option ℚ).getD 0) ∧
    ((162 : ℚ) / 25 = 6 + 12 / 25 + 0) :=
  c5_order_totals 2 9 5 ⟨[(4, 2)], none, none, some "n"⟩ [⟨4, "B", 3, 10, true⟩]
    ⟨9, 2, [⟨4, 2, 3, 6⟩], 6, 12 / 25, 0, 162 / 25, .pending, .pending,
      none, none, none, none, none, some "n", 5⟩
    [⟨4, "B", 3, 8, true⟩]
    (by norm_num [createOrder, buildItems, lookupActive, List.find?, decAll,
      applyDelta, List.filter])

/-! ### Status transitions -/

/-- C2 counterexample: a `delivered → processing` request through the
update-status route succeeds (HTTP 200 with the order now `processing`)
instead of failing, refuting the claimed state-machine discipline. -/
theorem c2_backward_transition_succeeds :
    updateStatusRoute
      [⟨1, 7, [], 0, 0, 0, 0, .delivered, .paid, none, none, some 0, none, none, none, 0⟩]
      1 .processing none none 9 []
    = (.ok ⟨1, 7, [], 0, 0, 0, 0, .processing, .paid, none, none, some 0, none,
        none, none, 0⟩, []) := by
  rfl

/-- C2 (amended): the update-status route enforces no transition
discipline at all — for any stored order and any requested status from the
enum it succeeds, setting the order's status to the requested value
regardless of the current status (so backward transitions and transitions
out of `delivered` and `cancelled` all succeed), and it runs the
stock-restore loop exactly when the requested status is `cancelled`. -/
theorem c2_update_status_unrestricted (orders : List Order) (oid : Nat)
    (status : OrderStatus) (tn cr : Option String) (now : ℤ) (store : Store)
    (o : Order) (hfind : orders.find? (fun o => decide (o.id = oid)) = some o) :
    ∃ o', updateStatusRoute orders oid status tn cr now store
        = (.ok o', if status = .cancelled then restoreAll o.items store else store) ∧
      o'.status = status := by
  simp only [updateStatusRoute]
  rw [hfind]
  dsimp only
  by_cases hc : status = .cancelled
  · subst hc
    rw [if_pos rfl, if_pos rfl, if_neg (by simp), if_neg (by simp)]
    exact ⟨_, rfl, rfl⟩
  · rw [if_neg hc, if_neg hc]
    by_cases h1 : status = .shipped ∧ tn.isSome
    · rw [if_pos h1]
      by_cases h2 : status = .delivered
      · rw [if_pos h2]; exact ⟨_, rfl, rfl⟩
      · rw [if_neg h2]; exact ⟨_, rfl, rfl⟩
    · rw [if_neg h1]
      by_cases h2 : status = .delivered
      · rw [if_pos h2]; exact ⟨_, rfl, rfl⟩
      · rw [if_neg h2]; exact ⟨_, rfl, rfl⟩

/-- C2 (amended) witness: a `cancelled → confirmed` request on a concrete
cancelled order succeeds with the order now `confirmed`. -/
theorem c2_update_status_unrestricted_witness :
    ∃ o', updateStatusRoute
        [⟨3, 8, [], 1, 0, 0, 1, .cancelled, .pending, none, none, none, some 2,
          some "r", none, 0⟩]
        3 .confirmed none none 11 [⟨5, "A", 2, 9, true⟩]
      = (.ok o', if OrderStatus.confirmed = .cancelled then
          restoreAll [] [⟨5, "A", 2, 9, true⟩] else [⟨5, "A", 2, 9, true⟩]) ∧
      o'.status = .confirmed :=
  c2_update_status_unrestricted _ 3 .confirmed none none 11 [⟨5, "A", 2, 9, true⟩]
    ⟨3, 8, [], 1, 0, 0, 1, .cancelled, .pending, none, none, none, some 2,
      some "r", none, 0⟩ rfl

/-- C4 counterexample: requesting status `cancelled` through the
update-status route for an order that is already `cancelled` does not fail
with `AlreadyCancelled` — it succeeds and runs the stock-restore loop
again (stock 5 becomes 8 for a quantity-3 item), refuting the claim for
that path. -/
theorem c4_status_route_recancel_releases_stock :
    updateStatusRoute
      [⟨1, 7, [⟨2, 3, 1, 3⟩], 3, 0, 0, 3, .cancelled, .pending, none, none, none,
        some 0, some "r", none, 0⟩]
      1 .cancelled none (some "again") 9 [⟨2, "P", 1, 5, true⟩]
    = (.ok ⟨1, 7, [⟨2, 3, 1, 3⟩], 3, 0, 0, 3, .cancelled, .pending, none, none,
        none, some 9, some "again", none, 0⟩,
       [⟨2, "P", 1, 8, true⟩]) := by
  simp [updateStatusRoute, List.find?, restoreAll, applyDelta, List.foldl]
  norm_num

/-- C4 (amended): through the cancel endpoint the guard does hold — when
the order matched by the cancel query is already `cancelled`, the route
fails with `AlreadyCancelled` (HTTP 400, `Order is already cancelled`) and
performs no stock release or other store mutation.  (The update-status
route, by contrast, re-accepts `cancelled` and releases stock again.) -/
theorem c4_cancel_route_already_cancelled (caller : Nat) (role : Role) (oid : Nat)
    (reason : Option String) (now : ℤ) (orders : List Order) (store : Store)
    (o : Order) (hfind : orders.find? (cancelQuery caller role oid) = some o)
    (hc : o.status = .cancelled) :
    cancelRoute caller role oid reason now orders store
      = (.error .alreadyCancelled, store) ∧
    cancelResponse caller role oid reason now orders store
      = (400, "Order is already cancelled") := by
  have hroute : cancelRoute caller role oid reason now orders store
      = (.error .alreadyCancelled, store) := by
    simp only [cancelRoute]
    rw [hfind]
    dsimp only
    rw [if_pos hc]
  refine ⟨hroute, ?_⟩
  simp only [cancelResponse]
  rw [hroute]

/-- C4 (amended) witness: an admin re-cancelling a concrete cancelled
order gets `AlreadyCancelled` with the store untouched. -/
theorem c4_cancel_route_already_cancelled_witness :
    cancelRoute 7 .admin 1 (some "again") 9
        [⟨1, 5, [⟨2, 3, 1, 3⟩], 3, 0, 0, 3, .cancelled, .pending, none, none,
          none, some 0, some "r", none, 0⟩]
        [⟨2, "P", 1, 5, true⟩]
      = (.error .alreadyCancelled, [⟨2, "P", 1, 5, true⟩]) ∧
    cancelResponse 7 .admin 1 (some "again") 9
        [⟨1, 5, [⟨2, 3, 1, 3⟩], 3, 0, 0, 3, .cancelled, .pending, none, none,
          none, some 0, some "r", none, 0⟩]
        [⟨2, "P", 1, 5, true⟩]
      = (400, "Order is already cancelled") :=
  c4_cancel_route_already_cancelled 7 .admin 1 (some "again") 9 _ _
    ⟨1, 5, [⟨2, 3, 1, 3⟩], 3, 0, 0, 3, .cancelled, .pending, none, none,
      none, some 0, some "r", none, 0⟩ rfl rfl

/-! ### Customer scoping of cancel, get and list -/

theorem c9_find_none (caller : Nat) (oid : Nat) (orders : List Order)
    (h : ∀ o ∈ orders, o.id = oid → o.customer ≠ caller) :
    orders.find? (cancelQuery caller .user oid) = none := by
  rw [List.find?_eq_none]
  intro o ho
  simp only [cancelQuery, Bool.and_eq_true, Bool.or_eq_true, decide_eq_true_eq]
  rintro ⟨hid, hrest⟩
  rcases hrest with hadmin | ⟨hcust, _⟩
  · exact absurd hadmin (by simp)
  · exact h o ho hid hcust

/-- C9: a non-admin caller attempting to cancel an order that is not their
own (in particular another user's pending order) receives exactly the same
rejection — HTTP 404, `Order not found or cannot be cancelled` — as when
the order id does not exist at all (the same collection with every order
of that id removed), so the response reveals nothing about the order's
existence, owner, or state; moreover the store is untouched. -/
theorem c9_cancel_no_info_leak (caller : Nat) (oid : Nat) (reason : Option String)
    (now : ℤ) (orders : List Order) (store : Store)
    (h : ∀ o ∈ orders, o.id = oid → o.customer ≠ caller) :
    cancelResponse caller .user oid reason now orders store
      = cancelResponse caller .user oid reason now
          (orders.filter (fun o => !decide (o.id = oid))) store ∧
    cancelResponse caller .user oid reason now orders store
      = (404, "Order not found or cannot be cancelled") ∧
    cancelRoute caller .user oid reason now orders store
      = (.error .notFound, store) := by
  have h2 : ∀ o ∈ orders.filter (fun o => !decide (o.id = oid)),
      o.id = oid → o.customer ≠ caller :=
    fun o ho => h o (List.mem_of_mem_filter ho)
  have hr1 : cancelRoute caller .user oid reason now orders store
      = (.error .notFound, store) := by
    simp only [cancelRoute]
    rw [c9_find_none caller oid orders h]
  have hr2 : cancelRoute caller .user oid reason now
      (orders.filter (fun o => !decide (o.id = oid))) store
      = (.error .notFound, store) := by
    simp only [cancelRoute]
    rw [c9_find_none caller oid _ h2]
  refine ⟨?_, ?_, hr1⟩
  · simp only [cancelResponse]
    rw [hr1, hr2]
  · simp only [cancelResponse]
    rw [hr1]

/-- C9 witness: caller 7 cancelling order 1, which belongs to customer 99
and is pending, gets the same 404 rejection as for a nonexistent order. -/
theorem c9_cancel_no_info_leak_witness :
    cancelResponse 7 .user 1 none 3
        [⟨1, 99, [], 0, 0, 0, 0, .pending, .pending, none, none, none, none,
          none, none, 0⟩] []
      = cancelResponse 7 .user 1 none 3
          (([⟨1, 99, [], 0, 0, 0, 0, .pending, .pending, none, none, none, none,
            none, none, 0⟩] : List Order).filter (fun o => !decide (o.id = 1))) [] ∧
    cancelResponse 7 .user 1 none 3
        [⟨1, 99, [], 0, 0, 0, 0, .pending, .pending, none, none, none, none,
          none, none, 0⟩] []
      = (404, "Order not found or cannot be cancelled") ∧
    cancelRoute 7 .user 1 none 3
        [⟨1, 99, [], 0, 0, 0, 0, .pending, .pending, none, none, none, none,
          none, none, 0⟩] []
      = (.error .notFound, []) :=
  c9_cancel_no_info_leak 7 1 none 3 _ [] (by decide)

theorem mem_insertSorted {le : Order → Order → Bool} {o x : Order}
    {l : List Order} (h : x ∈ insertSorted le o l) : x = o ∨ x ∈ l := by
  induction l with
  | nil => simpa [insertSorted] using h
  | cons y ys ih =>
    simp only [insertSorted] at h
    by_cases hle : le o y
    · rw [if_pos hle] at h
      rcases List.mem_cons.mp h with rfl | h2
      · exact Or.inl rfl
      · exact Or.inr h2
    · rw [if_neg hle] at h
      rcases List.mem_cons.mp h with rfl | h2
      · exact Or.inr (List.mem_cons_self _ _)
      · rcases ih h2 with rfl | h3
        · exact Or.inl rfl
        · exact Or.inr (List.mem_cons_of_mem _ h3)

theorem mem_sortOrders {le : Order → Order → Bool} {x : Order}
    {l : List Order} (h : x ∈ sortOrders le l) : x ∈ l := by
  induction l with
  | nil => simp [sortOrders] at h
  | cons y ys ih =>
    simp only [sortOrders] at h
    rcases mem_insertSorted h with rfl | h2
    · exact List.mem_cons_self _ _
    · exact List.mem_cons_of_mem _ (ih h2)

theorem c10_get_find_none (caller : Nat) (role : Role) (oid : Nat)
    (orders : List Order) (hrole : role ≠ .admin)
    (h : ∀ o ∈ orders, o.id = oid → o.customer ≠ caller) :
    orders.find? (fun o =>
      decide (o.id = oid) && (decide (role = .admin) || decide (o.customer = caller)))
      = none := by
  rw [List.find?_eq_none]
  intro o ho
  simp only [Bool.and_eq_true, Bool.or_eq_true, decide_eq_true_eq]
  rintro ⟨hid, hrest⟩
  rcases hrest with hadmin | hcust
  · exact hrole hadmin
  · exact h o ho hid hcust

/-- C10: for a non-admin caller, every order returned by the list route is
the caller's own, regardless of the status, payment-status, date and
pagination filters and of the sort comparator; and fetching an order id
that only resolves to someone else's order yields exactly the 404
`Order not found` response that a nonexistent id yields. -/
theorem c10_order_scoping (caller : Nat) (role : Role) (oid : Nat)
    (f : ListFilters) (le : Order → Order → Bool) (orders : List Order)
    (hrole : role ≠ .admin)
    (hother : ∀ o ∈ orders, o.id = oid → o.customer ≠ caller) :
    (∀ o ∈ listOrdersRoute caller role f le orders, o.customer = caller) ∧
    getOrderResponse caller role oid orders = (404, "Order not found") ∧
    getOrderResponse caller role oid orders
      = getOrderResponse caller role oid
          (orders.filter (fun o => !decide (o.id = oid))) := by
  have hget : ∀ os : List Order, (∀ o ∈ os, o.id = oid → o.customer ≠ caller) →
      getOrderResponse caller role oid os = (404, "Order not found") := by
    intro os hos
    simp only [getOrderResponse, getOrderRoute]
    rw [c10_get_find_none caller role oid os hrole hos]
  refine ⟨?_, hget orders hother, ?_⟩
  · intro o ho
    simp only [listOrdersRoute] at ho
    have h1 := List.drop_subset _ _ (List.take_subset _ _ ho)
    have h2 := mem_sortOrders h1
    have h3 := List.mem_filter.mp h2
    have hq := h3.2
    simp only [listQuery, Bool.and_eq_true, Bool.or_eq_true, decide_eq_true_eq] at hq
    rcases hq.1.1.1.1 with hadmin | hcust
    · exact absurd hadmin hrole
    · exact hcust
  · rw [hget orders hother,
      hget _ (fun o ho => hother o (List.mem_of_mem_filter ho))]

/-- C10 witness: a non-admin caller listing with a status filter sees only
their own orders, and requesting someone else's order id gets the
nonexistent-order 404. -/
theorem c10_order_scoping_witness :
    (∀ o ∈ listOrdersRoute 7 .user ⟨some .pending, none, none, none, 1, 10⟩
        (fun _ _ => true)
        [⟨1, 99, [], 0, 0, 0, 0, .pending, .pending, none, none, none, none,
          none, none, 0⟩,
         ⟨2, 7, [], 0, 0, 0, 0, .pending, .pending, none, none, none, none,
          none, none, 0⟩], o.customer = 7) ∧
    getOrderResponse 7 .user 1
        [⟨1, 99, [], 0, 0, 0, 0, .pending, .pending, none, none, none, none,
          none, none, 0⟩,
         ⟨2, 7, [], 0, 0, 0, 0, .pending, .pending, none, none, none, none,
          none, none, 0⟩] = (404, "Order not found") ∧
    getOrderResponse 7 .user 1
        [⟨1, 99, [], 0, 0, 0, 0, .pending, .pending, none, none, none, none,
          none, none, 0⟩,
         ⟨2, 7, [], 0, 0, 0, 0, .pending, .pending, none, none, none, none,
          none, none, 0⟩]
      = getOrderResponse 7 .user 1
          (([⟨1, 99, [], 0, 0, 0, 0, .pending, .pending, none, none, none, none,
            none, none, 0⟩,
           ⟨2, 7, [], 0, 0, 0, 0, .pending, .pending, none, none, none, none,
            none, none, 0⟩] : List Order).filter (fun o => !decide (o.id = 1))) :=
  c10_order_scoping 7 .user 1 ⟨some .pending, none, none, none, 1, 10⟩
    (fun _ _ => true) _ (by decide) (by decide)

/-! ### Cart behaviour -/

theorem addLine_absent {l : List CartItem} {pid : Nat} (qty price : ℚ)
    (h : ∀ it ∈ l, it.product ≠ pid) :
    addLine pid qty price l
      = l ++ [{ product := pid, quantity := qty, price := price, total := qty * price }] := by
  induction l with
  | nil => rfl
  | cons it rest ih =>
    have hit := h it (List.mem_cons_self _ _)
    simp only [addLine]
    rw [if_neg hit, ih (fun j hj => h j (List.mem_cons_of_mem _ hj))]
    rfl

theorem addLine_found_last {l : List CartItem} {pid : Nat} {x : CartItem}
    (qty price : ℚ) (h : ∀ it ∈ l, it.product ≠ pid) (hx : x.product = pid) :
    addLine pid qty price (l ++ [x])
      = l ++ [{ x with
                quantity := x.quantity + qty
                total := (x.quantity + qty) * price }] := by
  induction l with
  | nil =>
    simp only [List.nil_append, addLine]
    rw [if_pos hx]
  | cons it rest ih =>
    have hit := h it (List.mem_cons_self _ _)
    simp only [List.cons_append, addLine]
    rw [if_neg hit]
    exact congrArg (fun l => it :: l)
      (ih (fun j hj => h j (List.mem_cons_of_mem _ hj)))

/-- C6: calling `addItem` twice with the same product and the same price,
with quantities 2 and 3, on a cart that does not yet contain the product,
leaves exactly one cart line for that product, with quantity 5 and line
total 5 × price. -/
theorem c6_add_item_merges (c : Cart) (pid : Nat) (price : ℚ) (t₁ t₂ : ℤ)
    (h : ∀ it ∈ c.items, it.product ≠ pid) :
    (addItem (addItem c pid 2 price t₁) pid 3 price t₂).items.filter
        (fun it => decide (it.product = pid))
      = [{ product := pid, quantity := 5, price := price, total := 5 * price }] := by
  have hmap : ∀ (l : List CartItem), (∀ it ∈ l, it.product ≠ pid) →
      ∀ it ∈ l.map (fun it => { it with total := it.price * it.quantity }),
        it.product ≠ pid := by
    intro l hl it hit
    obtain ⟨it0, hit0, rfl⟩ := List.mem_map.mp hit
    exact hl it0 hit0
  have h2 : (addItem (addItem c pid 2 price t₁) pid 3 price t₂).items
      = (c.items.map (fun it => { it with total := it.price * it.quantity })).map
          (fun it => { it with total := it.price * it.quantity })
        ++ [{ product := pid, quantity := 2 + 3, price := price
              total := price * (2 + 3) }] := by
    simp only [addItem, saveCart]
    rw [addLine_absent 2 price h]
    simp only [List.map_append, List.map_cons, List.map_nil]
    rw [addLine_found_last 3 price (hmap c.items h) rfl]
    simp only [List.map_append, List.map_cons, List.map_nil]
  rw [h2, List.filter_append]
  have h3 : ((c.items.map (fun it => { it with total := it.price * it.quantity })).map
      (fun it => { it with total := it.price * it.quantity })).filter
        (fun it => decide (it.product = pid)) = [] := by
    rw [List.filter_eq_nil_iff]
    intro it hit
    simp only [decide_eq_true_eq]
    exact hmap _ (hmap c.items h) it hit
  rw [h3, List.nil_append]
  norm_num [List.filter]
  ring

/-- C6 witness: two `addItem` calls with quantities 2 and 3 at price 2 on
an empty cart leave a single line with quantity 5 and total 10. -/
theorem c6_add_item_merges_witness :
    (addItem (addItem ⟨0, [], 0, 0, 0⟩ 1 2 2 4) 1 3 2 9).items.filter
        (fun it => decide (it.product = 1))
      = [{ product := 1, quantity := 5, price := 2, total := 5 * 2 }] :=
  c6_add_item_merges ⟨0, [], 0, 0, 0⟩ 1 2 4 9 (by decide)

theorem saveCart_inv (c : Cart) (now : ℤ) : cartInv now (saveCart c now) := by
  refine ⟨?_, rfl, rfl, rfl⟩
  intro it hit
  obtain ⟨it0, _, rfl⟩ := List.mem_map.mp hit
  rfl

/-- C8: after each persisted cart mutation — add, a successful update,
remove, clear — the saved document satisfies the derived-value invariant:
every line total equals its stored price × quantity, the subtotal is the
sum of the line totals, the item count is the sum of the quantities, and
the last-modified timestamp is the save time. -/
theorem c8_cart_mutations_keep_invariant (c : Cart) (pid : Nat)
    (q₁ q₂ price : ℚ) (now : ℤ) (c' : Cart)
    (h : updateItem c pid q₂ now = .ok c') :
    cartInv now (addItem c pid q₁ price now) ∧ cartInv now c' ∧
    cartInv now (removeItem c pid now) ∧ cartInv now (clearCart c now) := by
  refine ⟨saveCart_inv _ _, ?_, saveCart_inv _ _, saveCart_inv _ _⟩
  simp only [updateItem] at h
  cases hu : updateLine pid q₂ c.items with
  | none => rw [hu] at h; exact absurd h (by simp)
  | some items =>
    rw [hu] at h
    simp only [Except.ok.injEq] at h
    rw [← h]
    exact saveCart_inv _ _

/-- C8 witness: updating the quantity of the only line of a concrete cart
to 5 succeeds, and all four mutations satisfy the invariant. -/
theorem c8_cart_mutations_keep_invariant_witness :
    cartInv 4 (addItem ⟨0, [⟨1, 2, 3, 6⟩], 6, 2, 0⟩ 1 7 3 4) ∧
    cartInv 4 ⟨0, [⟨1, 5, 3, 3 * 5⟩], 3 * 5, 5, 4⟩ ∧
    cartInv 4 (removeItem ⟨0, [⟨1, 2, 3, 6⟩], 6, 2, 0⟩ 1 4) ∧
    cartInv 4 (clearCart ⟨0, [⟨1, 2, 3, 6⟩], 6, 2, 0⟩ 4) :=
  c8_cart_mutations_keep_invariant ⟨0, [⟨1, 2, 3, 6⟩], 6, 2, 0⟩ 1 7 5 3 4
    ⟨0, [⟨1, 5, 3, 3 * 5⟩], 3 * 5, 5, 4⟩
    (by norm_num [updateItem, updateLine, saveCart])

/-! ### Stock adjustment modes -/

/-- C7: for an existing product and a validated (non-negative) stock
value, mode `set` replaces the stock with the value, `add` increases it by
the value, `subtract` decreases it clamped at zero (a subtract below zero
silently floors to zero and still succeeds rather than erroring), and —
with the schema invariant that current stock is non-negative — every
successful adjustment yields a non-negative new stock. -/
theorem c7_adjust_stock_modes (store : Store) (pid : Nat) (v : ℚ) (p : Product)
    (hp : lookupProduct store pid = some p) (hv : 0 ≤ v) (hs : 0 ≤ p.stock) :
    adjustStock store pid v (some .set)
      = .ok (store.map (fun q => if q.id = pid then { q with stock := v } else q),
             p.stock, v) ∧
    adjustStock store pid v (some .add)
      = .ok (store.map (fun q =>
               if q.id = pid then { q with stock := p.stock + v } else q),
             p.stock, p.stock + v) ∧
    adjustStock store pid v (some .subtract)
      = .ok (store.map (fun q =>
               if q.id = pid then { q with stock := max 0 (p.stock - v) } else q),
             p.stock, max 0 (p.stock - v)) ∧
    (∀ (op : Option StockOp) (r : Store × ℚ × ℚ),
      adjustStock store pid v op = .ok r → 0 ≤ r.2.2) := by
  have hvneg : ¬(v < 0) := not_lt.mpr hv
  refine ⟨?_, ?_, ?_, ?_⟩
  · simp only [adjustStock]
    rw [if_neg hvneg, hp]
    rfl
  · simp only [adjustStock]
    rw [if_neg hvneg, hp]
    rfl
  · simp only [adjustStock]
    rw [if_neg hvneg, hp]
    rfl
  · intro op r h
    simp only [adjustStock] at h
    rw [if_neg hvneg, hp] at h
    dsimp only at h
    cases hop : op.getD .set with
    | set =>
      rw [hop] at h
      simp only [Except.ok.injEq] at h
      rw [← h]
      exact hv
    | add =>
      rw [hop] at h
      simp only [Except.ok.injEq] at h
      rw [← h]
      exact add_nonneg hs hv
    | subtract =>
      rw [hop] at h
      simp only [Except.ok.injEq] at h
      rw [← h]
      exact le_max_left 0 _

/-- C7 witness: with current stock 4 and value 6, `set` yields 6, `add`
yields 10, and `subtract` floors at 0 while still succeeding. -/
theorem c7_adjust_stock_modes_witness :
    adjustStock [⟨3, "C", 1, 4, true⟩] 3 6 (some .set)
      = .ok (([⟨3, "C", 1, 4, true⟩] : Store).map
               (fun q => if q.id = 3 then { q with stock := 6 } else q), 4, 6) ∧
    adjustStock [⟨3, "C", 1, 4, true⟩] 3 6 (some .add)
      = .ok (([⟨3, "C", 1, 4, true⟩] : Store).map
               (fun q => if q.id = 3 then { q with stock := 4 + 6 } else q),
             4, 4 + 6) ∧
    adjustStock [⟨3, "C", 1, 4, true⟩] 3 6 (some .subtract)
      = .ok (([⟨3, "C", 1, 4, true⟩] : Store).map
               (fun q => if q.id = 3 then { q with stock := max 0 (4 - 6) } else q),
             4, max 0 (4 - 6)) ∧
    (∀ (op : Option StockOp) (r : Store × ℚ × ℚ),
      adjustStock [⟨3, "C", 1, 4, true⟩] 3 6 op = .ok r → 0 ≤ r.2.2) :=
  c7_adjust_stock_modes [⟨3, "C", 1, 4, true⟩] 3 6 ⟨3, "C", 1, 4, true⟩
    rfl (by norm_num) (by norm_num)

end FreshMart
